import Mathlib

set_option autoImplicit false

/-!
Verification development for the `musicbrainzngs` client library.

The read-path mapping engine (`mbxml.parse_message`, the Tree Builder of
spec §4.1–4.2) is not present in the repository snapshot (only its tests
and callers are), so it is modelled here from the specification; the
query façade, validation tables, search/browse/query assembly, parser
selection and submission normalization are shallow embeddings of
`musicbrainzngs/musicbrainz.py`.

Python dictionaries are modelled as association lists preserving
insertion order; dictionary assignment overwrites in place or appends at
the end, exactly as CPython's `dict` does.
-/

namespace Musicbrainzngs

/-- A value in a ResultDocument (spec §3): a string, an integer (used for
`<name>-count` keys), a nested document, or an ordered sequence. -/
inductive Value : Type where
  | str  : String → Value
  | natV : Nat → Value
  | doc  : List (String × Value) → Value
  | seq  : List Value → Value
deriving Repr

/-- A ResultDocument: insertion-ordered mapping from string keys to values. -/
abbrev Doc := List (String × Value)

/-- Python `d[k]` lookup (first binding wins; keys are unique by construction). -/
def lookupKey {α : Type} (d : List (String × α)) (k : String) : Option α :=
  match d with
  | [] => none
  | (k', v) :: rest => if k' = k then some v else lookupKey rest k

/-- Python `k in d`. -/
def hasKey {α : Type} (d : List (String × α)) (k : String) : Bool :=
  (lookupKey d k).isSome

/-- Python `d[k] = v`: overwrite in place if the key exists, else append. -/
def assocSet {α : Type} (d : List (String × α)) (k : String) (v : α) :
    List (String × α) :=
  match d with
  | [] => [(k, v)]
  | (k', v') :: rest =>
      if k' = k then (k', v) :: rest else (k', v') :: assocSet rest k v

/-- Python `d |= other` / `d.update(other)`: right-biased union. -/
def assocUnion {α : Type} (d other : List (String × α)) : List (String × α) :=
  other.foldl (fun acc kv => assocSet acc kv.1 kv.2) d

/-- An XML element as handed to the Tree Builder (spec §3 ParsedNode):
tag name, ordered attributes, ordered children, optional text content. -/
inductive ParsedNode : Type where
  | mk (tag : String) (attrs : List (String × String))
       (children : List ParsedNode) (text : Option String)

def ParsedNode.tag : ParsedNode → String
  | .mk t _ _ _ => t

def ParsedNode.attrs : ParsedNode → List (String × String)
  | .mk _ a _ _ => a

def ParsedNode.children : ParsedNode → List ParsedNode
  | .mk _ _ c _ => c

def ParsedNode.text : ParsedNode → Option String
  | .mk _ _ _ t => t

/-- Arity of a child element (spec §4.1): scalar attribute, singular
nested object, or member of a repeated list. -/
inductive Arity : Type where
  | scalar
  | singular
  | listMember
deriving DecidableEq, Repr

/-- Modelled from the spec: the Element Classifier's "static per-tag-pair
policy table" (spec §4.1), keyed by (tag, parent tag) and giving the
output key and arity.  `mbxml.py` is absent from the snapshot; the
entries below cover the tag pairs named by the spec and its tests
(aliases under artist/label/place, list members under browse list
wrappers, tags).  The relation-target context-dependent rename (spec
§4.1, driven by the relation's `target-type` attribute) is not needed by
any claim and is not modelled. -/
def policyTable : List ((String × String) × (String × Arity)) :=
  [ (("alias", "artist"), ("alias", Arity.listMember)),
    (("alias", "label"), ("alias", Arity.listMember)),
    (("alias", "place"), ("alias", Arity.listMember)),
    (("alias", "alias-list"), ("alias", Arity.listMember)),
    (("tag", "tag-list"), ("tag", Arity.listMember)),
    (("place", "place-list"), ("place", Arity.listMember)),
    (("artist", "artist-list"), ("artist", Arity.listMember)),
    (("release", "release-list"), ("release", Arity.listMember)),
    (("name", "artist"), ("name", Arity.scalar)),
    (("sort-name", "artist"), ("sort-name", Arity.scalar)) ]

/-- Lookup in the (tag, parent) keyed policy table. -/
def policyLookup (tag parent : String) :
    List ((String × String) × (String × Arity)) → Option (String × Arity)
  | [] => none
  | ((t, p), r) :: rest =>
      if t = tag ∧ p = parent then some r else policyLookup tag parent rest

/-- Modelled from the spec: `classify(tag, parent_tag) -> (OutputKey, Arity)`
(spec §4.1); unrecognized tag/parent pairs fall back to a singular
nested object with the tag itself as key (spec §4.1 error policy). -/
def classify (tag parent : String) : String × Arity :=
  match policyLookup tag parent policyTable with
  | some r => r
  | none => (tag, Arity.singular)

/-- Decimal accumulation over a digit list. -/
def digitsToNat : List Char → Nat → Nat
  | [], acc => acc
  | c :: rest, acc => digitsToNat rest (acc * 10 + (c.toNat - '0'.toNat))

/-- Python `int(s)` on the digit strings the service sends (count
attributes); non-digit input is irrelevant to the claims. -/
def parseNat (s : String) : Nat :=
  digitsToNat s.data 0

/-- Attribute merge (spec §4.2): every XML attribute becomes a key at the
same level as child-derived keys, values as strings, written before
children are walked. -/
def attrsDoc (attrs : List (String × String)) : Doc :=
  attrs.foldl (fun d a => assocSet d a.1 (Value.str a.2)) []

/-- Text-plus-attributes promotion (spec §4.2): text is promoted to a
synthetic key alongside the attribute keys; per the spec's §8 example
(`<alias sort-name="...">Sergei Prokofiev</alias>` yields key `alias`)
the synthetic key is the element's tag name. -/
def promoteText (tag : String) (d : Doc) (text : Option String) : Doc :=
  match text with
  | some t => assocSet d tag (Value.str t)
  | none => d

/-- The keys a single child step may write, by classification: a
scalar/singular child writes its output key; a list member writes
`<key>-list` and possibly `<key>-count`. -/
def stepKeys (parent ctag : String) : List String :=
  match classify ctag parent with
  | (k, Arity.scalar) => [k]
  | (k, Arity.singular) => [k]
  | (k, Arity.listMember) => [k ++ "-list", k ++ "-count"]

/-- Modelled from the spec: count recording for a list key (spec §3, §8,
§9).  When the node being built (the list wrapper) carries a `count`
attribute and a child classified ListMember with output key `k` is
appended, `"<k>-count"` is set to that integer — "recorded once, from
first occurrence" (spec §9 directs implementers to treat this as the
specification). -/
def recordCount (pattrs : List (String × String)) (d : Doc) (k : String) : Doc :=
  if hasKey d (k ++ "-count") then d
  else
    match lookupKey pattrs "count" with
    | some c => assocSet d (k ++ "-count") (Value.natV (parseNat c))
    | none => d

/-- Append a built member under the `<key>-list` key, creating the
sequence on first occurrence (spec §4.2 ListMember rule). -/
def appendMember (d : Doc) (k : String) (v : Value) : Doc :=
  match lookupKey d k with
  | some (Value.seq l) => assocSet d k (Value.seq (l ++ [v]))
  | _ => assocSet d k (Value.seq [v])

/-- One child step of the Tree Builder (spec §4.2): scalar and singular
children assign (overwrite) their output key; list members are appended
to `<key>-list` after count recording. -/
def buildStep (parent : String) (pattrs : List (String × String)) (d : Doc)
    (ctag : String) (v : Value) : Doc :=
  match classify ctag parent with
  | (k, Arity.scalar) => assocSet d k v
  | (k, Arity.singular) => assocSet d k v
  | (k, Arity.listMember) =>
      appendMember (recordCount pattrs d k) (k ++ "-list") v

/-- Walk the (tag, built value) pairs of a node's children in document
order, threading the document under construction. -/
def buildPairs (parent : String) (pattrs : List (String × String)) (d : Doc) :
    List (String × Value) → Doc
  | [] => d
  | (t, v) :: rest => buildPairs parent pattrs (buildStep parent pattrs d t v) rest

mutual
/-- Modelled from the spec: the Tree Builder `build(node) -> value`
(spec §4.2).  Base case: no children and no attributes yields the text
content (empty string if none).  A childless node with attributes merges
the attributes and promotes its text.  Otherwise attributes are written
first and the children are walked in document order. -/
def build : ParsedNode → Value
  | .mk tag attrs [] text =>
      if attrs.isEmpty then Value.str (text.getD "")
      else Value.doc (promoteText tag (attrsDoc attrs) text)
  | .mk tag attrs (c :: cs) _ =>
      Value.doc (buildPairs tag attrs (attrsDoc attrs) (buildTags (c :: cs)))

/-- The (tag, built value) pairs of a list of children, document order. -/
def buildTags : List ParsedNode → List (String × Value)
  | [] => []
  | c :: cs => (c.tag, build c) :: buildTags cs
end

/-- The values contributed to the `<k>-list` sequence by a list of
(tag, built value) child pairs, in document order. -/
def memberVals (parent k : String) (pairs : List (String × Value)) : List Value :=
  pairs.filterMap (fun p =>
    if classify p.1 parent = (k, Arity.listMember) then some p.2 else none)

/-- The children classified as members of key `k`'s list. -/
def memberChildren (parent k : String) (cs : List ParsedNode) : List ParsedNode :=
  cs.filter (fun c => decide (classify c.tag parent = (k, Arity.listMember)))

/-! ## Embedding of `musicbrainzngs/musicbrainz.py`: validation tables -/

/-- `RELATABLE_TYPES` (musicbrainz.py line 34). -/
def RELATABLE_TYPES : List String :=
  ["area", "artist", "label", "place", "event", "recording", "release",
   "release-group", "series", "url", "work", "instrument"]

/-- `RELATION_INCLUDES` (line 35): `f'{entity}-rels'` over RELATABLE_TYPES. -/
def RELATION_INCLUDES : List String :=
  RELATABLE_TYPES.map (fun entity => entity ++ "-rels")

/-- `TAG_INCLUDES` (line 36). -/
def TAG_INCLUDES : List String := ["tags", "user-tags", "genres", "user-genres"]

/-- `RATING_INCLUDES` (line 37). -/
def RATING_INCLUDES : List String := ["ratings", "user-ratings"]

/-- `VALID_INCLUDES` (lines 39–87), as an insertion-ordered dict. -/
def VALID_INCLUDES : List (String × List String) :=
  [ ("area", ["aliases", "annotation"] ++ RELATION_INCLUDES ++ TAG_INCLUDES),
    ("artist",
      ["recordings", "releases", "release-groups", "works",
       "various-artists", "discids", "media", "isrcs",
       "aliases", "annotation"]
      ++ RELATION_INCLUDES ++ TAG_INCLUDES ++ RATING_INCLUDES),
    ("annotation", []),
    ("instrument", ["aliases", "annotation"] ++ RELATION_INCLUDES ++ TAG_INCLUDES),
    ("label",
      ["releases", "discids", "media", "aliases", "annotation"]
      ++ RELATION_INCLUDES ++ TAG_INCLUDES ++ RATING_INCLUDES),
    ("place", ["aliases", "annotation"] ++ RELATION_INCLUDES ++ TAG_INCLUDES),
    ("event", ["aliases"] ++ RELATION_INCLUDES ++ TAG_INCLUDES ++ RATING_INCLUDES),
    ("recording",
      ["artists", "releases", "discids", "media", "artist-credits", "isrcs",
       "work-level-rels", "annotation", "aliases"]
      ++ TAG_INCLUDES ++ RATING_INCLUDES ++ RELATION_INCLUDES),
    ("release",
      ["artists", "labels", "recordings", "release-groups", "media",
       "artist-credits", "discids", "isrcs",
       "recording-level-rels", "work-level-rels", "annotation", "aliases"]
      ++ TAG_INCLUDES ++ RELATION_INCLUDES),
    ("release-group",
      ["artists", "releases", "discids", "media",
       "artist-credits", "annotation", "aliases"]
      ++ TAG_INCLUDES ++ RATING_INCLUDES ++ RELATION_INCLUDES),
    ("series", ["annotation", "aliases"] ++ RELATION_INCLUDES ++ TAG_INCLUDES),
    ("work",
      ["aliases", "annotation"] ++ TAG_INCLUDES ++ RATING_INCLUDES
      ++ RELATION_INCLUDES),
    ("url", RELATION_INCLUDES),
    ("discid",
      ["artists", "labels", "recordings", "release-groups", "media",
       "artist-credits", "discids", "isrcs",
       "recording-level-rels", "work-level-rels", "annotation", "aliases"]
      ++ RELATION_INCLUDES),
    ("isrc", ["artists", "releases", "isrcs"]),
    ("iswc", ["artists"]),
    ("collection", ["releases"]) ]

/-- `VALID_BROWSE_INCLUDES` (lines 88–99). -/
def VALID_BROWSE_INCLUDES : List (String × List String) :=
  [ ("artist", ["aliases"] ++ TAG_INCLUDES ++ RATING_INCLUDES ++ RELATION_INCLUDES),
    ("event", ["aliases"] ++ TAG_INCLUDES ++ RATING_INCLUDES ++ RELATION_INCLUDES),
    ("label", ["aliases"] ++ TAG_INCLUDES ++ RATING_INCLUDES ++ RELATION_INCLUDES),
    ("recording",
      ["artist-credits", "isrcs", "work-level-rels"]
      ++ TAG_INCLUDES ++ RATING_INCLUDES ++ RELATION_INCLUDES),
    ("release",
      ["artist-credits", "labels", "recordings", "isrcs",
       "release-groups", "media", "discids"] ++ RELATION_INCLUDES),
    ("place", ["aliases"] ++ TAG_INCLUDES ++ RELATION_INCLUDES),
    ("release-group",
      ["artist-credits"] ++ TAG_INCLUDES ++ RATING_INCLUDES ++ RELATION_INCLUDES),
    ("url", RELATION_INCLUDES),
    ("work",
      ["aliases", "annotation"] ++ TAG_INCLUDES ++ RATING_INCLUDES
      ++ RELATION_INCLUDES) ]

/-- `VALID_RELEASE_TYPES` (lines 102–107). -/
def VALID_RELEASE_TYPES : List String :=
  ["nat",
   "album", "single", "ep", "broadcast", "other",
   "compilation", "soundtrack", "spokenword", "interview", "audiobook",
   "live", "remix", "dj-mix", "mixtape/street", "audio drama"]

/-- `VALID_RELEASE_STATUSES` (line 109). -/
def VALID_RELEASE_STATUSES : List String :=
  ["official", "promotion", "bootleg", "pseudo-release"]

/-- `VALID_SEARCH_FIELDS` (lines 110–167). -/
def VALID_SEARCH_FIELDS : List (String × List String) :=
  [ ("annotation", ["entity", "name", "text", "type"]),
    ("area",
      ["aid", "alias", "area", "areaaccent", "begin", "comment", "end",
       "ended", "iso", "iso1", "iso2", "iso3", "sortname", "tag", "type"]),
    ("artist",
      ["alias", "area", "arid", "artist", "artistaccent", "begin", "beginarea",
       "comment", "country", "end", "endarea", "ended", "gender",
       "ipi", "isni", "primary_alias", "sortname", "tag", "type"]),
    ("event",
      ["aid", "alias", "area", "arid", "artist", "begin", "comment", "eid",
       "end", "ended", "event", "eventaccent", "pid", "place", "tag", "type"]),
    ("instrument",
      ["alias", "comment", "description", "iid", "instrument",
       "instrumentaccent", "tag", "type"]),
    ("label",
      ["alias", "area", "begin", "code", "comment", "country", "end", "ended",
       "ipi", "label", "labelaccent", "laid", "release_count", "sortname",
       "tag", "type"]),
    ("place",
      ["address", "alias", "area", "begin", "comment", "end", "ended", "lat",
       "long", "pid", "place", "placeaccent", "type"]),
    ("recording",
      ["alias", "arid", "artist", "artistname", "comment", "country",
       "creditname", "date", "dur", "format", "isrc", "number", "position",
       "primarytype", "qdur", "recording", "recordingaccent", "reid",
       "release", "rgid", "rid", "secondarytype", "status", "tag", "tid",
       "tnum", "tracks", "tracksrelease", "type", "video"]),
    ("release-group",
      ["alias", "arid", "artist", "artistname", "comment", "creditname",
       "primarytype", "reid", "release", "releasegroup", "releasegroupaccent",
       "releases", "rgid", "secondarytype", "status", "tag", "type"]),
    ("release",
      ["alias", "arid", "artist", "artistname", "asin", "barcode", "catno",
       "comment", "country", "creditname", "date", "discids", "discidsmedium",
       "format", "label", "laid", "lang", "mediums", "primarytype", "quality",
       "reid", "release", "releaseaccent", "rgid", "script", "secondarytype",
       "status", "tag", "tracks", "tracksmedium", "type"]),
    ("series",
      ["alias", "comment", "orderingattribute", "series", "seriesaccent",
       "sid", "tag", "type"]),
    ("work",
      ["alias", "arid", "artist", "comment", "iswc", "lang", "recording",
       "recording_count", "rid", "tag", "type", "wid", "work", "workaccent"]) ]

/-! ## Computable string helpers

Python's `sep.join(...)`, `str.strip()`, `str.lower()` and
`str.startswith(...)` are modelled by the structurally recursive
functions below (the core library versions are compiled by well-founded
recursion over byte positions and do not reduce definitionally). -/

/-- Python `sep.join(parts)`. -/
def strJoin (sep : String) : List String → String
  | [] => ""
  | [x] => x
  | x :: rest => x ++ sep ++ strJoin sep rest

/-- Python `s.lower()` (ASCII case folding suffices for the claims). -/
def strLower (s : String) : String :=
  String.mk (s.data.map Char.toLower)

/-- Python `s.strip()`: drop leading and trailing whitespace. -/
def strTrim (s : String) : String :=
  String.mk
    (((s.data.dropWhile Char.isWhitespace).reverse.dropWhile
        Char.isWhitespace).reverse)

/-- Python `s.startswith(t)`. -/
def strStartsWith (s t : String) : Bool :=
  decide (t.data = s.data.take t.data.length)

/-! ## Errors and auth levels -/

/-- The exception kinds the façade can raise; the constructor payload
carries the distinguishing datum of the Python exception's message. -/
inductive MBErr : Type where
  | invalidInclude (which : String)
  | invalidFilter (msg : String)
  | invalidSearchField (which entity : String)
  | valueError (msg : String)
  | genericError (msg : String)
  | keyError (key : String)
deriving DecidableEq, Repr

/-- `AUTH_YES` / `AUTH_NO` / `AUTH_IFSET` (lines 169–171). -/
inductive AuthLevel : Type where
  | yes
  | no
  | ifset
deriving DecidableEq, Repr

/-! ## Include and filter validation -/

/-- `_check_includes_impl` (lines 236–240): raise `InvalidIncludeError`
on the first include not in the valid list. -/
def check_includes_impl (includes valid : List String) : Except MBErr Unit :=
  match includes with
  | [] => .ok ()
  | i :: rest =>
      if i ∈ valid then check_includes_impl rest valid
      else .error (.invalidInclude i)

/-- `_check_filter` (lines 244–247): raise `InvalidFilterError` on the
first value not in the valid list. -/
def check_filter (values valid : List String) : Except MBErr Unit :=
  match values with
  | [] => .ok ()
  | v :: rest =>
      if v ∈ valid then check_filter rest valid
      else .error (.invalidFilter v)

/-- A release status/type argument: Python callers pass `None`, a bare
string, or a list of strings (lines 254–261 normalize all three). -/
inductive FilterArg : Type where
  | nil
  | one (s : String)
  | many (l : List String)
deriving DecidableEq, Repr

/-- Lines 254–261: `None` becomes `[]`, a bare `str` is wrapped in a
one-element list, a list passes through. -/
def FilterArg.toList : FilterArg → List String
  | .nil => []
  | .one s => [s]
  | .many l => l

/-- `_check_filter_and_make_params` (lines 249–280): validate status and
type values, check they are usable with the given includes/entity, and
build the `params` dict joining multi-valued filters with `|`. -/
def check_filter_and_make_params (entity : String) (includes : List String)
    (release_status release_type : FilterArg) :
    Except MBErr (List (String × String)) :=
  let rs := release_status.toList
  let rt := release_type.toList
  match check_filter rs VALID_RELEASE_STATUSES with
  | .error e => .error e
  | .ok _ =>
    match check_filter rt VALID_RELEASE_TYPES with
    | .error e => .error e
    | .ok _ =>
      if rs ≠ [] ∧ "releases" ∉ includes ∧ entity ≠ "release" then
        .error (.invalidFilter "Can't have a status with no release include")
      else if rt ≠ [] ∧ "release-groups" ∉ includes ∧ "releases" ∉ includes
          ∧ entity ≠ "release-group" ∧ entity ≠ "release" then
        .error (.invalidFilter
          "Can't have a release type with no releases or release-groups involved")
      else
        let params : List (String × String) := []
        let params :=
          if rs.length ≠ 0 then
            assocSet params "status" (strJoin "|" rs)
          else params
        let params :=
          if rt.length ≠ 0 then
            assocSet params "type" (strJoin "|" rt)
          else params
        .ok params

/-! ## Query assembly (`_do_mb_query`, lines 625–649) -/

/-- `_get_auth_type` (lines 610–622). -/
def get_auth_type (entity id : String) (includes : List String) : AuthLevel :=
  if "user-tags" ∈ includes ∨ "user-ratings" ∈ includes
      ∨ "user-genres" ∈ includes then .yes
  else if strStartsWith entity "collection" then
    (if id = "" then .yes else .ifset)
  else .no

/-- The fully assembled GET request `_do_mb_query` hands to
`_mb_request` (path, auth level, query args); producing a `Request` is
the network-interaction boundary of the embedding. -/
structure Request : Type where
  path : String
  authRequired : AuthLevel
  args : List (String × String)
deriving DecidableEq, Repr

/-- An `includes` argument: line 638 wraps any non-list value in a
one-element list (`if not isinstance(includes, list): includes = [includes]`). -/
inductive IncludesArg : Type where
  | one (s : String)
  | many (l : List String)

/-- Lines 638–639. -/
def IncludesArg.normalize : IncludesArg → List String
  | .one s => [s]
  | .many l => l

/-- `_do_mb_query` (lines 625–649): normalize `includes`, validate them
against `VALID_INCLUDES[entity]` (a `KeyError` for an unknown entity),
compute the auth level, copy `params` into `args`, join the includes
with a space under the `inc` key, and build the `{entity}/{id}` GET
request. -/
def do_mb_query (entity id : String) (includes : IncludesArg)
    (params : List (String × String)) : Except MBErr Request :=
  let inc := includes.normalize
  match lookupKey VALID_INCLUDES entity with
  | none => .error (.keyError entity)
  | some valid =>
    match check_includes_impl inc valid with
    | .error e => .error e
    | .ok _ =>
      let auth := get_auth_type entity id inc
      let args := params
      let args :=
        if inc.length > 0 then
          assocSet args "inc" (strJoin " " inc)
        else args
      .ok { path := entity ++ "/" ++ id, authRequired := auth, args := args }

/-! ## Search assembly (`_do_mb_search`, lines 651–703) -/

/-- The characters of `LUCENE_SPECIAL` (line 30):
`([+\-&|!(){}\[\]\^"~*?:\\\/])`. -/
def LUCENE_SPECIAL_CHARS : List Char :=
  ['+', '-', '&', '|', '!', '(', ')', '\x7b', '\x7d', '[', ']', '^',
   '"', '~', '*', '?', ':', '\\', '/']

/-- `re.sub(LUCENE_SPECIAL, r'\\\1', s)`: prefix every Lucene special
character with a backslash. -/
def luceneEscape (s : String) : String :=
  String.mk (s.data.foldr
    (fun c acc =>
      if LUCENE_SPECIAL_CHARS.contains c then '\\' :: c :: acc else c :: acc)
    [])

/-- The query parts contributed by the `query` argument (lines 662–672):
escaped and quoted/lowercased only when fields are present. -/
def queryParts (query : String) (haveFields strict : Bool) : List String :=
  if query ≠ "" then
    if haveFields then
      let clean := luceneEscape query
      if strict then ["\"" ++ clean ++ "\""] else [strLower clean]
    else [query]
  else []

/-- The query parts contributed by `fields` (lines 673–687): each key is
checked against `VALID_SEARCH_FIELDS[entity]` (a `KeyError` for an
unknown entity), each value is Lucene-escaped, and an empty escaped
value contributes nothing. -/
def fieldParts (entity : String) (strict : Bool) :
    List (String × String) → Except MBErr (List String)
  | [] => .ok []
  | (key, value) :: rest =>
    match lookupKey VALID_SEARCH_FIELDS entity with
    | none => .error (.keyError entity)
    | some valid =>
      if key ∉ valid then .error (.invalidSearchField key entity)
      else
        let v := luceneEscape value
        let part : List String :=
          if v = "" then []
          else if strict then [key ++ ":\"" ++ v ++ "\""]
          else [key ++ ":(" ++ strLower v ++ ")"]
        match fieldParts entity strict rest with
        | .error e => .error e
        | .ok ps => .ok (part ++ ps)

/-- Lines 688–691: join with `' AND '` when strict, else `' '`, then strip. -/
def joinQueryParts (strict : Bool) (parts : List String) : String :=
  strTrim (strJoin (if strict then " AND " else " ") parts)

/-- The field-derived query parts when every key is valid (the pure
content of `fieldParts`, without the validity checking). -/
def fieldPartsList (strict : Bool) (fields : List (String × String)) :
    List String :=
  fields.foldr (fun kv acc =>
    (let v := luceneEscape kv.2
     if v = "" then []
     else if strict then [kv.1 ++ ":\"" ++ v ++ "\""]
     else [kv.1 ++ ":(" ++ strLower v ++ ")"]) ++ acc) []

/-- The assembled `full_query` of `_do_mb_search` (line 688–691) for
given arguments. -/
def fullQueryOf (query : String) (fields : List (String × String))
    (strict : Bool) : String :=
  joinQueryParts strict
    (queryParts query (fields ≠ []) strict ++ fieldPartsList strict fields)

/-- `_do_mb_search` (lines 651–703): build the Lucene query string,
raise `ValueError` when it is empty, then delegate to `_do_mb_query`
with the `query`/`limit`/`offset` params and no includes. -/
def do_mb_search (entity query : String) (fields : List (String × String))
    (limit offset : Option String) (strict : Bool) : Except MBErr Request :=
  match fieldParts entity strict fields with
  | .error e => .error e
  | .ok fps =>
    let full_query :=
      joinQueryParts strict (queryParts query (fields ≠ []) strict ++ fps)
    if full_query = "" then
      .error (.valueError "at least one query term is required")
    else
      let params := [("query", full_query)]
      let params := match limit with
        | some l => assocSet params "limit" l
        | none => params
      let params := match offset with
        | some o => assocSet params "offset" o
        | none => params
      do_mb_query entity "" (.many []) params

/-! ## Response format and parser selection (lines 457–512) -/

/-- The parser functions reachable through `set_format`: the default
XML mapping parser `mb_parser_xml` or the plain `json.loads`. -/
inductive ParserKind : Type where
  | xmlParser
  | jsonLoads
deriving DecidableEq, Repr

/-- The module state touched by `set_format`/`set_parser`:
`ws_format` (line 476) and `parser_fun` (line 475). -/
structure WsState : Type where
  ws_format : String
  parser_fun : ParserKind
deriving DecidableEq, Repr

/-- Module defaults (lines 475–476). -/
def defaultWsState : WsState := { ws_format := "xml", parser_fun := .xmlParser }

/-- `set_parser` (lines 478–490): `None` resets to `mb_parser_xml`. -/
def setParserFn (p : Option ParserKind) (st : WsState) : WsState :=
  match p with
  | none => { st with parser_fun := .xmlParser }
  | some f => { st with parser_fun := f }

/-- `set_format` (lines 492–512): `"xml"` stores the format and resets
the parser to the default; `"json"` stores the format and installs
`json.loads`; anything else raises `ValueError` without touching the
state (the raise precedes every assignment). -/
def set_format (fmt : String) (st : WsState) : Except MBErr WsState :=
  if fmt = "xml" then
    .ok (setParserFn none { st with ws_format := fmt })
  else if fmt = "json" then
    .ok (setParserFn (some .jsonLoads) { st with ws_format := fmt })
  else
    .error (.valueError ("invalid format: " ++ fmt))

/-- Response-parse dispatch of `_mb_request` (line 607,
`return parser_fun(resp.content)`): the installed parser function is
applied to the raw body; `xmlEngine` stands for the XML mapping engine
`mb_parser_xml` and `jsonDecoder` for `json.loads`. -/
def runParser {α : Type} (k : ParserKind) (xmlEngine jsonDecoder : String → α)
    (body : String) : α :=
  match k with
  | .xmlParser => xmlEngine body
  | .jsonLoads => jsonDecoder body

/-! ## `mb_parser_xml` error wrapping (lines 447–472) -/

/-- The exceptions the underlying XML parse can raise:
`xml.etree.ElementTree.ParseError`, `xml.parsers.expat.ExpatError`,
`UnicodeError`, or any other exception type `name`. -/
inductive ParseExc : Type where
  | parseError
  | expatError
  | unicodeError
  | otherExc (name : String)
deriving DecidableEq, Repr

/-- `ETREE_EXCEPTIONS` membership (lines 449–452, Python ≥ 2.7 branch:
`(etree.ParseError, expat.ExpatError)`). -/
def isEtreeException : ParseExc → Bool
  | .parseError => true
  | .expatError => true
  | _ => false

/-- What `mb_parser_xml` lets escape: an opaque `ResponseError` wrapping
its cause, or the original exception re-raised. -/
inductive XmlParserOutcome : Type where
  | responseError (cause : ParseExc)
  | propagated (e : ParseExc)
deriving DecidableEq, Repr

/-- `mb_parser_xml` (lines 461–472) applied to the outcome of
`mbxml.parse_message(resp)`: a `UnicodeError` or a member of
`ETREE_EXCEPTIONS` becomes a `ResponseError` carrying the cause; any
other exception is re-raised; a successful parse is returned as-is. -/
def mb_parser_xml_wrap (parsed : Except ParseExc Doc) :
    Except XmlParserOutcome Doc :=
  match parsed with
  | .ok d => .ok d
  | .error e =>
      if e = ParseExc.unicodeError then .error (.responseError e)
      else if isEtreeException e then .error (.responseError e)
      else .error (.propagated e)

/-! ## Browse assembly (`_browse_impl`, lines 1051–1066) -/

/-- `{k: v for k, v in params.items() if v}` (line 1059): keep the
link parameters with truthy values (`None` and `""` are falsy). -/
def truthyParams (params : List (String × Option String)) :
    List (String × String) :=
  params.filterMap (fun p =>
    match p.2 with
    | some v => if v = "" then none else some (p.1, v)
    | none => none)

/-- `_browse_impl` (lines 1051–1066): normalize includes, validate them
against `VALID_BROWSE_INCLUDES[entity]`, reject more than one truthy
link parameter, add `limit`/`offset`, merge the release filter params,
and delegate to `_do_mb_query` with an empty id. -/
def browse_impl (entity : String) (includes : IncludesArg)
    (limit offset : Option String) (params : List (String × Option String))
    (release_status release_type : FilterArg) : Except MBErr Request :=
  let inc := includes.normalize
  match lookupKey VALID_BROWSE_INCLUDES entity with
  | none => .error (.keyError entity)
  | some valid =>
    match check_includes_impl inc valid with
    | .error e => .error e
    | .ok _ =>
      let p := truthyParams params
      if p.length > 1 then
        .error (.genericError ("Can't have more than one of "
          ++ strJoin ", " (params.map (fun q => q.1))))
      else
        let p := match limit with
          | some l => assocSet p "limit" l
          | none => p
        let p := match offset with
          | some o => assocSet p "offset" o
          | none => p
        match check_filter_and_make_params entity inc release_status release_type with
        | .error e => .error e
        | .ok filterp => do_mb_query entity "" (.many inc) (assocUnion p filterp)

/-- `browse_artists` (lines 1071–1083): the four mutually exclusive
link parameters in their source order. -/
def browse_artists (recording release release_group work : Option String)
    (includes : IncludesArg) (limit offset : Option String) :
    Except MBErr Request :=
  browse_impl "artist" includes limit offset
    [("recording", recording), ("release", release),
     ("release-group", release_group), ("work", work)]
    .nil .nil

/-! ## Submission normalization (lines 1261–1308) -/

/-- A value in a submission payload: a bare string or a list
(`isinstance(x, list)` is the discriminator the source uses). -/
inductive PyVal : Type where
  | pstr (s : String)
  | plist (l : List String)
deriving DecidableEq, Repr

/-- The scalar-to-list normalization the façade applies:
`x if isinstance(x, list) else [x]`. -/
def normToList : PyVal → PyVal
  | .pstr s => .plist [s]
  | .plist l => .plist l

/-- The payload transformation `submit_isrcs` (lines 1267–1277) applies
before calling the encoder: every recording's value is normalized to a
list. -/
def submit_isrcs_prep (recording_isrcs : List (String × PyVal)) :
    List (String × PyVal) :=
  recording_isrcs.map (fun p => (p.1, normToList p.2))

/-- The payload transformation `submit_tags` (lines 1279–1296) applies
before calling the encoder: inside every `*_tags` keyword argument,
every entity id's value is normalized to a list. -/
def submit_tags_prep (kwargs : List (String × List (String × PyVal))) :
    List (String × List (String × PyVal)) :=
  kwargs.map (fun kv => (kv.1, kv.2.map (fun iv => (iv.1, normToList iv.2))))

/-- The payload transformation `submit_ratings` (lines 1298–1308)
applies before calling the encoder: none — `kwargs` is passed to
`mbxml.make_rating_request` unchanged. -/
def submit_ratings_prep (kwargs : List (String × List (String × PyVal))) :
    List (String × List (String × PyVal)) :=
  kwargs

/-! ## Association list lemmas -/

theorem lookup_assocSet_self {α : Type} (d : List (String × α)) (k : String)
    (v : α) : lookupKey (assocSet d k v) k = some v := by
  induction d with
  | nil => simp [assocSet, lookupKey]
  | cons hd tl ih =>
    obtain ⟨k', v'⟩ := hd
    by_cases h : k' = k
    · simp [assocSet, h, lookupKey]
    · simp [assocSet, h, lookupKey, ih]

theorem lookup_assocSet_ne {α : Type} (d : List (String × α)) (k k' : String)
    (v : α) (h : k' ≠ k) :
    lookupKey (assocSet d k v) k' = lookupKey d k' := by
  induction d with
  | nil =>
    have hne : k ≠ k' := fun he => h he.symm
    simp [assocSet, lookupKey, hne]
  | cons hd tl ih =>
    obtain ⟨k0, v0⟩ := hd
    by_cases h0 : k0 = k
    · subst h0
      have hne : k0 ≠ k' := fun he => h he.symm
      simp [assocSet, lookupKey, hne]
    · simp only [assocSet, if_neg h0, lookupKey]
      by_cases h1 : k0 = k'
      · simp [h1]
      · simp [h1, ih]

/-! ## String disequality helpers -/

theorem string_append_ne_self (k s : String) (h : s.length ≠ 0) :
    k ++ s ≠ k := by
  intro he
  have := congrArg String.length he
  rw [String.length_append] at this
  omega

theorem string_append_right_inj (k : String) {s t : String}
    (h : k ++ s = k ++ t) : s = t := by
  have hd : (k ++ s).data = (k ++ t).data := by rw [h]
  simp only [String.data_append] at hd
  exact String.ext (List.append_cancel_left hd)

theorem list_suffix_ne (k : String) : k ++ "-list" ≠ k :=
  string_append_ne_self k "-list" (by decide)

theorem count_suffix_ne (k : String) : k ++ "-count" ≠ k :=
  string_append_ne_self k "-count" (by decide)

theorem list_ne_count_suffix (k : String) : k ++ "-list" ≠ k ++ "-count" := by
  intro h
  have := string_append_right_inj k h
  exact absurd this (by decide)

/-! ## Tree Builder step lemmas -/

theorem lookup_recordCount_ne (pattrs : List (String × String)) (d : Doc)
    (k key : String) (h : key ≠ k ++ "-count") :
    lookupKey (recordCount pattrs d k) key = lookupKey d key := by
  unfold recordCount
  split
  · rfl
  · split
    · exact lookup_assocSet_ne d (k ++ "-count") key _ h
    · rfl

theorem lookup_appendMember_ne (d : Doc) (k key : String) (v : Value)
    (h : key ≠ k) :
    lookupKey (appendMember d k v) key = lookupKey d key := by
  unfold appendMember
  split
  · exact lookup_assocSet_ne d k key _ h
  · exact lookup_assocSet_ne d k key _ h

theorem lookup_appendMember_self_seq (d : Doc) (k : String) (v : Value)
    (l : List Value) (h : lookupKey d k = some (Value.seq l)) :
    lookupKey (appendMember d k v) k = some (Value.seq (l ++ [v])) := by
  unfold appendMember
  split
  · rename_i l' heq
    rw [h] at heq
    cases heq
    exact lookup_assocSet_self d k _
  · rename_i hne
    exact absurd rfl (by rw [h] at hne; exact hne _)

theorem lookup_appendMember_self_notSeq (d : Doc) (k : String) (v : Value)
    (h : ∀ l, lookupKey d k ≠ some (Value.seq l)) :
    lookupKey (appendMember d k v) k = some (Value.seq [v]) := by
  unfold appendMember
  split
  · rename_i l' heq
    exact absurd heq (h l')
  · exact lookup_assocSet_self d k _

theorem lookup_buildStep_of_not_stepKey (parent : String)
    (pattrs : List (String × String)) (d : Doc) (ctag : String) (v : Value)
    (key : String) (h : key ∉ stepKeys parent ctag) :
    lookupKey (buildStep parent pattrs d ctag v) key = lookupKey d key := by
  unfold buildStep
  unfold stepKeys at h
  rcases hc : classify ctag parent with ⟨k, a⟩
  rw [hc] at h
  cases a with
  | scalar =>
    simp only [List.mem_singleton] at h
    exact lookup_assocSet_ne d k key v h
  | singular =>
    simp only [List.mem_singleton] at h
    exact lookup_assocSet_ne d k key v h
  | listMember =>
    simp only [List.mem_cons, List.not_mem_nil, or_false, not_or] at h
    rw [lookup_appendMember_ne _ _ _ _ h.1]
    exact lookup_recordCount_ne pattrs d k key h.2

/-! ## Tree Builder fold lemmas -/

theorem buildPairs_lookup_of_not_stepKey (parent : String)
    (pattrs : List (String × String)) (key : String)
    (pairs : List (String × Value)) :
    ∀ d : Doc, (∀ p ∈ pairs, key ∉ stepKeys parent p.1) →
    lookupKey (buildPairs parent pattrs d pairs) key = lookupKey d key := by
  induction pairs with
  | nil => intro d _; rfl
  | cons p rest ih =>
    intro d hp
    obtain ⟨t, v⟩ := p
    show lookupKey (buildPairs parent pattrs (buildStep parent pattrs d t v) rest) key = _
    rw [ih _ (fun q hq => hp q (List.mem_cons_of_mem _ hq))]
    exact lookup_buildStep_of_not_stepKey parent pattrs d t v key
      (hp (t, v) (List.mem_cons_self _ _))

theorem buildPairs_lookup_seq (parent : String)
    (pattrs : List (String × String)) (k : String)
    (pairs : List (String × Value)) :
    ∀ (d : Doc) (l : List Value),
    (∀ p ∈ pairs, classify p.1 parent = (k, Arity.listMember)
        ∨ (k ++ "-list") ∉ stepKeys parent p.1) →
    lookupKey d (k ++ "-list") = some (Value.seq l) →
    lookupKey (buildPairs parent pattrs d pairs) (k ++ "-list")
      = some (Value.seq (l ++ memberVals parent k pairs)) := by
  induction pairs with
  | nil =>
    intro d l _ hd
    simpa [buildPairs, memberVals] using hd
  | cons p rest ih =>
    intro d l hp hd
    obtain ⟨t, v⟩ := p
    by_cases hm : classify t parent = (k, Arity.listMember)
    · have hstep : lookupKey (buildStep parent pattrs d t v) (k ++ "-list")
          = some (Value.seq (l ++ [v])) := by
        simp only [buildStep, hm]
        rw [lookup_appendMember_self_seq]
        rw [lookup_recordCount_ne pattrs d k _ (list_ne_count_suffix k)]
        exact hd
      have := ih (buildStep parent pattrs d t v) (l ++ [v])
        (fun q hq => hp q (List.mem_cons_of_mem _ hq)) hstep
      show lookupKey (buildPairs parent pattrs (buildStep parent pattrs d t v) rest) _ = _
      rw [this]
      simp [memberVals, hm]
    · rcases hp (t, v) (List.mem_cons_self _ _) with hm' | hnk
      · exact absurd hm' hm
      · have hstep : lookupKey (buildStep parent pattrs d t v) (k ++ "-list")
            = some (Value.seq l) := by
          rw [lookup_buildStep_of_not_stepKey parent pattrs d t v _ hnk]
          exact hd
        have := ih (buildStep parent pattrs d t v) l
          (fun q hq => hp q (List.mem_cons_of_mem _ hq)) hstep
        show lookupKey (buildPairs parent pattrs (buildStep parent pattrs d t v) rest) _ = _
        rw [this]
        simp [memberVals, hm]

theorem buildPairs_lookup_notSeq (parent : String)
    (pattrs : List (String × String)) (k : String)
    (pairs : List (String × Value)) :
    ∀ d : Doc,
    (∀ p ∈ pairs, classify p.1 parent = (k, Arity.listMember)
        ∨ (k ++ "-list") ∉ stepKeys parent p.1) →
    (∀ l, lookupKey d (k ++ "-list") ≠ some (Value.seq l)) →
    memberVals parent k pairs ≠ [] →
    lookupKey (buildPairs parent pattrs d pairs) (k ++ "-list")
      = some (Value.seq (memberVals parent k pairs)) := by
  induction pairs with
  | nil => intro d _ _ hne; exact absurd rfl hne
  | cons p rest ih =>
    intro d hp hd hne
    obtain ⟨t, v⟩ := p
    by_cases hm : classify t parent = (k, Arity.listMember)
    · have hstep : lookupKey (buildStep parent pattrs d t v) (k ++ "-list")
          = some (Value.seq [v]) := by
        simp only [buildStep, hm]
        rw [lookup_appendMember_self_notSeq]
        intro l
        rw [lookup_recordCount_ne pattrs d k _ (list_ne_count_suffix k)]
        exact hd l
      have := buildPairs_lookup_seq parent pattrs k rest
        (buildStep parent pattrs d t v) [v]
        (fun q hq => hp q (List.mem_cons_of_mem _ hq)) hstep
      show lookupKey (buildPairs parent pattrs (buildStep parent pattrs d t v) rest) _ = _
      rw [this]
      simp [memberVals, hm]
    · rcases hp (t, v) (List.mem_cons_self _ _) with hm' | hnk
      · exact absurd hm' hm
      · have hpres := lookup_buildStep_of_not_stepKey parent pattrs d t v _ hnk
        have hne' : memberVals parent k rest ≠ [] := by
          intro h0
          apply hne
          simp [memberVals, hm] at h0 ⊢
          exact h0
        have := ih (buildStep parent pattrs d t v)
          (fun q hq => hp q (List.mem_cons_of_mem _ hq))
          (fun l => by rw [hpres]; exact hd l) hne'
        show lookupKey (buildPairs parent pattrs (buildStep parent pattrs d t v) rest) _ = _
        rw [this]
        simp [memberVals, hm]

theorem buildPairs_count_preserved (parent : String)
    (pattrs : List (String × String)) (k : String)
    (pairs : List (String × Value)) :
    ∀ (d : Doc) (v : Value),
    (∀ p ∈ pairs, classify p.1 parent = (k, Arity.listMember)
        ∨ (k ++ "-count") ∉ stepKeys parent p.1) →
    lookupKey d (k ++ "-count") = some v →
    lookupKey (buildPairs parent pattrs d pairs) (k ++ "-count") = some v := by
  induction pairs with
  | nil => intro d v _ hd; exact hd
  | cons p rest ih =>
    intro d v hp hd
    obtain ⟨t, w⟩ := p
    have hstep : lookupKey (buildStep parent pattrs d t w) (k ++ "-count")
        = some v := by
      by_cases hm : classify t parent = (k, Arity.listMember)
      · simp only [buildStep, hm]
        rw [lookup_appendMember_ne _ _ _ _ (Ne.symm (list_ne_count_suffix k))]
        unfold recordCount
        rw [if_pos (by unfold hasKey; rw [hd]; rfl)]
        exact hd
      · rcases hp (t, w) (List.mem_cons_self _ _) with hm' | hnk
        · exact absurd hm' hm
        · rw [lookup_buildStep_of_not_stepKey parent pattrs d t w _ hnk]
          exact hd
    exact ih _ v (fun q hq => hp q (List.mem_cons_of_mem _ hq)) hstep

theorem buildPairs_count_set (parent : String)
    (pattrs : List (String × String)) (k cstr : String)
    (pairs : List (String × Value)) :
    ∀ d : Doc,
    (∀ p ∈ pairs, classify p.1 parent = (k, Arity.listMember)
        ∨ (k ++ "-count") ∉ stepKeys parent p.1) →
    lookupKey pattrs "count" = some cstr →
    lookupKey d (k ++ "-count") = none →
    memberVals parent k pairs ≠ [] →
    lookupKey (buildPairs parent pattrs d pairs) (k ++ "-count")
      = some (Value.natV (parseNat cstr)) := by
  induction pairs with
  | nil => intro d _ _ _ hne; exact absurd rfl hne
  | cons p rest ih =>
    intro d hp hcount hd hne
    obtain ⟨t, w⟩ := p
    by_cases hm : classify t parent = (k, Arity.listMember)
    · have hstep : lookupKey (buildStep parent pattrs d t w) (k ++ "-count")
          = some (Value.natV (parseNat cstr)) := by
        simp only [buildStep, hm]
        rw [lookup_appendMember_ne _ _ _ _ (Ne.symm (list_ne_count_suffix k))]
        unfold recordCount
        rw [if_neg (by unfold hasKey; rw [hd]; simp)]
        rw [hcount]
        exact lookup_assocSet_self d (k ++ "-count") _
      exact buildPairs_count_preserved parent pattrs k rest _ _
        (fun q hq => hp q (List.mem_cons_of_mem _ hq)) hstep
    · rcases hp (t, w) (List.mem_cons_self _ _) with hm' | hnk
      · exact absurd hm' hm
      · have hpres := lookup_buildStep_of_not_stepKey parent pattrs d t w _ hnk
        refine ih _ (fun q hq => hp q (List.mem_cons_of_mem _ hq))
          hcount (by rw [hpres]; exact hd) ?_
        intro h0
        apply hne
        simp [memberVals, hm] at h0 ⊢
        exact h0

/-! ## attrsDoc and buildTags lemmas -/

theorem lookup_attrsDoc_str (attrs : List (String × String)) :
    ∀ key v, lookupKey (attrsDoc attrs) key = some v → ∃ s, v = Value.str s := by
  have general : ∀ (as : List (String × String)) (d : Doc),
      (∀ key v, lookupKey d key = some v → ∃ s, v = Value.str s) →
      ∀ key v,
        lookupKey (as.foldl (fun d a => assocSet d a.1 (Value.str a.2)) d) key
          = some v → ∃ s, v = Value.str s := by
    intro as
    induction as with
    | nil => intro d hd key v h; exact hd key v h
    | cons a rest ih =>
      intro d hd key v h
      refine ih (assocSet d a.1 (Value.str a.2)) ?_ key v h
      intro key' v' h'
      by_cases hk : key' = a.1
      · subst hk
        rw [lookup_assocSet_self] at h'
        exact ⟨a.2, (Option.some.injEq _ _ ▸ h').symm⟩
      · rw [lookup_assocSet_ne _ _ _ _ hk] at h'
        exact hd key' v' h'
  intro key v h
  exact general attrs [] (by intro key' v' h'; simp [lookupKey] at h') key v h

theorem buildTags_eq (cs : List ParsedNode) :
    buildTags cs = cs.map (fun c => (c.tag, build c)) := by
  induction cs with
  | nil => rfl
  | cons c rest ih => simp [buildTags, ih]

theorem memberVals_buildTags (parent k : String) (cs : List ParsedNode) :
    memberVals parent k (buildTags cs)
      = (memberChildren parent k cs).map build := by
  induction cs with
  | nil => rfl
  | cons c rest ih =>
    by_cases hm : classify c.tag parent = (k, Arity.listMember)
    · simp [buildTags, memberVals, memberChildren, hm] at ih ⊢
      exact ih
    · simp [buildTags, memberVals, memberChildren, hm] at ih ⊢
      exact ih

/-! ## Claim C1 -/

/-- C1: for every XML node with N>1 child elements sharing a tag classified
as ListMember, the built result maps `"<key>-list"` to an ordered sequence
of exactly N entries — the recursively built children in document order —
and no scalar key for that tag is created or overwritten by the repeated
siblings (the bare key `k` is exactly what the attribute merge left there).
The side conditions say that no differently-tagged child feeds the same
list key and that the other children's output keys do not collide with
`k` or `"<k>-list"`. -/
theorem C1_repeated_siblings_accumulate
    (tag : String) (attrs : List (String × String)) (children : List ParsedNode)
    (text : Option String) (t k : String) (N : Nat)
    (ht : classify t tag = (k, Arity.listMember))
    (hN : (children.filter (fun c => c.tag == t)).length = N)
    (hN1 : 1 < N)
    (honly : ∀ c ∈ children, classify c.tag tag = (k, Arity.listMember) → c.tag = t)
    (hnc : ∀ c ∈ children, classify c.tag tag ≠ (k, Arity.listMember) →
      (k ++ "-list") ∉ stepKeys tag c.tag ∧ k ∉ stepKeys tag c.tag) :
    ∃ D, build (ParsedNode.mk tag attrs children text) = Value.doc D
      ∧ lookupKey D (k ++ "-list")
          = some (Value.seq ((children.filter (fun c => c.tag == t)).map build))
      ∧ ((children.filter (fun c => c.tag == t)).map build).length = N
      ∧ lookupKey D k = lookupKey (attrsDoc attrs) k := by
  have hmc : memberChildren tag k children
      = children.filter (fun c => c.tag == t) := by
    unfold memberChildren
    apply List.filter_congr
    intro c hc
    by_cases hct : c.tag = t
    · simp [hct, ht]
    · have hncl : classify c.tag tag ≠ (k, Arity.listMember) :=
        fun h => hct (honly c hc h)
      simp [hct, hncl]
  have hpairs : ∀ p ∈ buildTags children,
      ∃ c' ∈ children, p = (c'.tag, build c') := by
    intro p hpmem
    rw [buildTags_eq] at hpmem
    obtain ⟨c', hc', hpc⟩ := List.mem_map.mp hpmem
    exact ⟨c', hc', hpc.symm⟩
  cases children with
  | nil => simp at hN; omega
  | cons c cs =>
    refine ⟨buildPairs tag attrs (attrsDoc attrs) (buildTags (c :: cs)),
      rfl, ?_, ?_, ?_⟩
    · have hres := buildPairs_lookup_notSeq tag attrs k (buildTags (c :: cs))
        (attrsDoc attrs)
        (by
          intro p hpmem
          obtain ⟨c', hc', hpc⟩ := hpairs p hpmem
          subst hpc
          by_cases hcl : classify c'.tag tag = (k, Arity.listMember)
          · exact Or.inl hcl
          · exact Or.inr (hnc c' hc' hcl).1)
        (by
          intro l hl
          obtain ⟨s, hs⟩ := lookup_attrsDoc_str attrs (k ++ "-list") _ hl
          cases hs)
        (by
          rw [memberVals_buildTags, hmc]
          intro h0
          have := congrArg List.length h0
          simp [hN] at this
          omega)
      rw [hres, memberVals_buildTags, hmc]
    · simp [hN]
    · apply buildPairs_lookup_of_not_stepKey
      intro p hpmem
      obtain ⟨c', hc', hpc⟩ := hpairs p hpmem
      subst hpc
      by_cases hcl : classify c'.tag tag = (k, Arity.listMember)
      · simp only [stepKeys, hcl, List.mem_cons, List.not_mem_nil, or_false,
          not_or]
        exact ⟨fun h => list_suffix_ne k h.symm,
               fun h => count_suffix_ne k h.symm⟩
      · exact (hnc c' hc' hcl).2

/-- Witness for C1: an `artist` node with three `alias` children (and one
`name` child that classifies as a scalar) accumulates all three aliases
under `alias-list` in document order and creates no scalar `alias` key. -/
theorem C1_witness :
    ∃ D,
      build (ParsedNode.mk "artist" []
        [ParsedNode.mk "alias" [] [] (some "Prokefiev"),
         ParsedNode.mk "name" [] [] (some "Sergei Prokofiev"),
         ParsedNode.mk "alias" [] [] (some "Prokofiev, Sergei"),
         ParsedNode.mk "alias" [] [] (some "Sergei Prokofiev")] none)
        = Value.doc D
      ∧ lookupKey D "alias-list" = some (Value.seq
          [Value.str "Prokefiev", Value.str "Prokofiev, Sergei",
           Value.str "Sergei Prokofiev"])
      ∧ lookupKey D "alias" = none := by
  obtain ⟨D, h1, h2, h3, h4⟩ := C1_repeated_siblings_accumulate
    "artist" []
    [ParsedNode.mk "alias" [] [] (some "Prokefiev"),
     ParsedNode.mk "name" [] [] (some "Sergei Prokofiev"),
     ParsedNode.mk "alias" [] [] (some "Prokofiev, Sergei"),
     ParsedNode.mk "alias" [] [] (some "Sergei Prokofiev")] none
    "alias" "alias" 3 (by decide) rfl (by decide) (by decide) (by decide)
  exact ⟨D, h1, h2.trans (by rfl), h4.trans rfl⟩

/-! ## Claim C2 -/

/-- C2: for every parsed list wrapper carrying a `count` attribute, the
built result pairs `"<name>-list"` with a sibling `"<name>-count"` integer
equal to the attribute value, and the materialized list length equals the
number of item children actually present — which may be smaller than the
count (partial pages; the witness instantiates `count="21"` with 13
children, and nothing ties `children.length` to the attribute). -/
theorem C2_list_count_pairing
    (tag : String) (attrs : List (String × String)) (children : List ParsedNode)
    (text : Option String) (k cstr : String)
    (hcount : lookupKey attrs "count" = some cstr)
    (hmem : ∀ c ∈ children, classify c.tag tag = (k, Arity.listMember))
    (hne : children ≠ [])
    (hattr : lookupKey (attrsDoc attrs) (k ++ "-count") = none) :
    ∃ D, build (ParsedNode.mk tag attrs children text) = Value.doc D
      ∧ lookupKey D (k ++ "-count") = some (Value.natV (parseNat cstr))
      ∧ lookupKey D (k ++ "-list") = some (Value.seq (children.map build))
      ∧ (children.map build).length = children.length := by
  cases children with
  | nil => exact absurd rfl hne
  | cons c cs =>
    have hp : ∀ p ∈ buildTags (c :: cs),
        classify p.1 tag = (k, Arity.listMember) := by
      intro p hpmem
      rw [buildTags_eq] at hpmem
      obtain ⟨c', hc', hpc⟩ := List.mem_map.mp hpmem
      subst hpc
      exact hmem c' hc'
    have hmc : memberChildren tag k (c :: cs) = c :: cs := by
      unfold memberChildren
      rw [List.filter_eq_self]
      intro a ha
      simpa using hmem a ha
    have hmv : memberVals tag k (buildTags (c :: cs)) = (c :: cs).map build := by
      rw [memberVals_buildTags, hmc]
    refine ⟨buildPairs tag attrs (attrsDoc attrs) (buildTags (c :: cs)),
      rfl, ?_, ?_, by simp⟩
    · exact buildPairs_count_set tag attrs k cstr (buildTags (c :: cs))
        (attrsDoc attrs) (fun p hpm => Or.inl (hp p hpm)) hcount hattr
        (by rw [hmv]; simp)
    · have hres := buildPairs_lookup_notSeq tag attrs k (buildTags (c :: cs))
        (attrsDoc attrs) (fun p hpm => Or.inl (hp p hpm))
        (by
          intro l hl
          obtain ⟨s, hs⟩ := lookup_attrsDoc_str attrs (k ++ "-list") _ hl
          cases hs)
        (by rw [hmv]; simp)
      rw [hres, hmv]

/-- Witness for C2: a `place-list` wrapper with `count="21"` but only 13
`place` children yields `place-count = 21` while `place-list` holds
exactly 13 items (partial-page fidelity). -/
theorem C2_witness :
    ∃ D,
      build (ParsedNode.mk "place-list" [("count", "21")]
        (List.replicate 13 (ParsedNode.mk "place" [] [] (some "p"))) none)
        = Value.doc D
      ∧ lookupKey D "place-count" = some (Value.natV 21)
      ∧ ∃ items, lookupKey D "place-list" = some (Value.seq items)
          ∧ items.length = 13 := by
  obtain ⟨D, h1, h2, h3, h4⟩ := C2_list_count_pairing "place-list"
    [("count", "21")]
    (List.replicate 13 (ParsedNode.mk "place" [] [] (some "p"))) none
    "place" "21" rfl (by decide) (by simp) rfl
  exact ⟨D, h1, h2.trans (by rfl),
    (List.replicate 13 (ParsedNode.mk "place" [] [] (some "p"))).map build,
    h3.trans (by rfl), by simp⟩

/-! ## Claim C3 -/

/-- C3 counterexample: the claim extends the scalar-to-list normalization
to "every submission operation, including ratings", but `submit_ratings`
(lines 1298–1308) passes its payload to the encoder unchanged: the
scalar payload `{"id1": "80"}` and its list-wrapped form `{"id1": ["80"]}`
are still distinct when they reach `mbxml.make_rating_request`, while
`submit_tags` maps both to the same normalized payload. -/
theorem C3_counterexample :
    submit_ratings_prep [("artist_ratings", [("id1", PyVal.pstr "80")])]
      ≠ submit_ratings_prep [("artist_ratings", [("id1", PyVal.plist ["80"])])]
    ∧ submit_tags_prep [("artist_tags", [("id1", PyVal.pstr "tagA")])]
      = submit_tags_prep [("artist_tags", [("id1", PyVal.plist ["tagA"])])] := by
  decide

/-- C3 (amended): scalar-to-list normalization in the list-valued
submission paths (`submit_tags`, `submit_isrcs`) is idempotent; a scalar
value and its one-element list wrapping normalize to the same payload
(hence any encoder applied to the normalized payload yields byte-identical
output), and already-a-list input passes through unchanged.
`submit_ratings` (and `submit_barcodes`) apply no such normalization. -/
theorem C3_scalar_normalization_idempotent :
    (∀ v, normToList (normToList v) = normToList v)
    ∧ (∀ l, normToList (PyVal.plist l) = PyVal.plist l)
    ∧ (∀ (pre post : List (String × PyVal)) (id s : String),
        submit_isrcs_prep (pre ++ (id, PyVal.pstr s) :: post)
          = submit_isrcs_prep (pre ++ (id, PyVal.plist [s]) :: post))
    ∧ (∀ ri, submit_isrcs_prep (submit_isrcs_prep ri) = submit_isrcs_prep ri)
    ∧ (∀ (kw1 kw2 : List (String × List (String × PyVal))) (ek : String)
        (pre post : List (String × PyVal)) (id s : String),
        submit_tags_prep (kw1 ++ (ek, pre ++ (id, PyVal.pstr s) :: post) :: kw2)
          = submit_tags_prep (kw1 ++ (ek, pre ++ (id, PyVal.plist [s]) :: post) :: kw2))
    ∧ (∀ kw, submit_tags_prep (submit_tags_prep kw) = submit_tags_prep kw)
    ∧ (∀ kw, submit_ratings_prep kw = kw) := by
  have hid : ∀ v, normToList (normToList v) = normToList v := by
    intro v; cases v <;> rfl
  refine ⟨hid, fun l => rfl, ?_, ?_, ?_, ?_, fun kw => rfl⟩
  · intro pre post id s
    simp [submit_isrcs_prep, normToList]
  · intro ri
    simp only [submit_isrcs_prep, List.map_map]
    apply List.map_congr_left
    intro p _
    simp [Function.comp, hid p.2]
  · intro kw1 kw2 ek pre post id s
    simp [submit_tags_prep, normToList]
  · intro kw
    simp only [submit_tags_prep, List.map_map]
    apply List.map_congr_left
    intro p _
    simp only [Function.comp, List.map_map]
    refine congrArg _ ?_
    apply List.map_congr_left
    intro q _
    simp [Function.comp, hid q.2]

/-! ## Claim C4 -/

/-- C4: for every response payload on which the underlying XML parse
fails with `etree.ParseError`, `expat.ExpatError` or `UnicodeError`,
`mb_parser_xml` surfaces exactly the opaque `ResponseError` kind carrying
the cause, and never lets the underlying parser's exception type escape
to the caller. -/
theorem C4_parse_failure_is_ResponseError {α : Type}
    (parse_message : α → Except ParseExc Doc) (payload : α) (e : ParseExc)
    (hfail : parse_message payload = .error e)
    (hkind : e = ParseExc.parseError ∨ e = ParseExc.expatError
      ∨ e = ParseExc.unicodeError) :
    mb_parser_xml_wrap (parse_message payload)
      = .error (XmlParserOutcome.responseError e)
    ∧ ∀ e', mb_parser_xml_wrap (parse_message payload)
        ≠ .error (XmlParserOutcome.propagated e') := by
  rw [hfail]
  rcases hkind with rfl | rfl | rfl <;>
    exact ⟨rfl, by intro e' h; simp [mb_parser_xml_wrap, isEtreeException] at h⟩

/-- Witness for C4 at a concrete parse function and payload failing with
`ExpatError`. -/
theorem C4_witness :
    mb_parser_xml_wrap
      ((fun _ : Nat => (Except.error ParseExc.expatError : Except ParseExc Doc)) 0)
      = .error (XmlParserOutcome.responseError ParseExc.expatError)
    ∧ ∀ e', mb_parser_xml_wrap
        ((fun _ : Nat => (Except.error ParseExc.expatError : Except ParseExc Doc)) 0)
        ≠ .error (XmlParserOutcome.propagated e') :=
  C4_parse_failure_is_ResponseError
    (fun _ : Nat => .error ParseExc.expatError) 0 ParseExc.expatError rfl
    (Or.inr (Or.inl rfl))

/-! ## Claim C7 -/

/-- C7: `set_format "json"` installs the plain JSON decoder (so every
subsequent response body is handed to `json.loads` and the XML mapping
engine is bypassed), `set_format "xml"` restores the XML mapping parser,
and any other argument raises `ValueError`, leaving format and parser
unchanged (the embedding returns no new state on error). -/
theorem C7_set_format_dispatch :
    (∀ st : WsState, set_format "json" st
        = .ok { ws_format := "json", parser_fun := ParserKind.jsonLoads })
    ∧ (∀ st : WsState, set_format "xml" st
        = .ok { ws_format := "xml", parser_fun := ParserKind.xmlParser })
    ∧ (∀ (α : Type) (st st' : WsState) (xmlEngine jsonDecoder : String → α)
        (body : String),
        set_format "json" st = .ok st' →
        runParser st'.parser_fun xmlEngine jsonDecoder body = jsonDecoder body)
    ∧ (∀ (fmt : String) (st : WsState), fmt ≠ "xml" → fmt ≠ "json" →
        set_format fmt st = .error (.valueError ("invalid format: " ++ fmt))) := by
  refine ⟨fun st => rfl, fun st => rfl, ?_, ?_⟩
  · intro α st st' xmlEngine jsonDecoder body h
    have hs : (Except.ok { ws_format := "json", parser_fun := ParserKind.jsonLoads }
        : Except MBErr WsState) = .ok st' := by rw [← h]; rfl
    injection hs with hs'
    subst hs'
    rfl
  · intro fmt st h1 h2
    unfold set_format
    rw [if_neg h1, if_neg h2]

/-- Witness for C7: the JSON branch at the default state, plus the
`ValueError` branch at format `"yaml"`. -/
theorem C7_witness :
    runParser
      (match set_format "json" defaultWsState with
        | .ok st' => st'.parser_fun
        | .error _ => ParserKind.xmlParser)
      (fun _ : String => "xml-engine-ran") (fun b : String => b) "body"
      = "body"
    ∧ set_format "yaml" defaultWsState
        = .error (.valueError ("invalid format: " ++ "yaml")) := by
  constructor
  · exact C7_set_format_dispatch.2.2.1 String defaultWsState
      { ws_format := "json", parser_fun := ParserKind.jsonLoads }
      (fun _ => "xml-engine-ran") (fun b => b) "body" rfl
  · exact C7_set_format_dispatch.2.2.2 "yaml" defaultWsState
      (by decide) (by decide)

/-! ## Claim C10 -/

/-- C10: passing a single non-list include value is equivalent to passing
the one-element list containing it — `_do_mb_query` (line 638) and
`_browse_impl` (line 1056) wrap the bare value before validation and
request assembly, so both forms produce the same request. -/
theorem C10_bare_include_equals_singleton (entity id s : String)
    (params : List (String × String)) (limit offset : Option String)
    (bparams : List (String × Option String)) (rs rt : FilterArg) :
    do_mb_query entity id (IncludesArg.one s) params
      = do_mb_query entity id (IncludesArg.many [s]) params
    ∧ browse_impl entity (IncludesArg.one s) limit offset bparams rs rt
      = browse_impl entity (IncludesArg.many [s]) limit offset bparams rs rt :=
  ⟨rfl, rfl⟩

/-! ## Include validation lemmas -/

theorem check_includes_impl_ok_iff (includes valid : List String) :
    check_includes_impl includes valid = .ok () ↔ ∀ i ∈ includes, i ∈ valid := by
  induction includes with
  | nil => simp [check_includes_impl]
  | cons i rest ih =>
    by_cases h : i ∈ valid
    · simp [check_includes_impl, h, ih]
    · simp [check_includes_impl, h]

theorem check_includes_impl_error_iff (includes valid : List String) :
    (∃ i ∈ includes, i ∉ valid) ↔
      ∃ w, check_includes_impl includes valid = .error (MBErr.invalidInclude w) := by
  induction includes with
  | nil => simp [check_includes_impl]
  | cons i rest ih =>
    by_cases h : i ∈ valid
    · simpa [check_includes_impl, h] using ih
    · simp [check_includes_impl, h]

theorem check_includes_impl_error_shape (includes valid : List String)
    (e : MBErr) (h : check_includes_impl includes valid = .error e) :
    ∃ w, e = MBErr.invalidInclude w := by
  induction includes with
  | nil => simp [check_includes_impl] at h
  | cons i rest ih =>
    by_cases hm : i ∈ valid
    · rw [check_includes_impl, if_pos hm] at h
      exact ih h
    · rw [check_includes_impl, if_neg hm] at h
      exact ⟨i, (Except.error.inj h).symm⟩

/-! ## Claim C5 -/

/-- C5: for every entity present in the static `VALID_INCLUDES` table and
every list of include strings, `_do_mb_query` fails with
`InvalidIncludeError` if and only if some include is absent from that
entity's valid-include list, and this happens before any request object
is assembled (the embedding's `Request` is the network boundary); when
all includes are valid, the query proceeds to a request and no
include-related error is raised. -/
theorem C5_invalid_include_iff (entity id : String)
    (valid includes : List String) (params : List (String × String))
    (hent : lookupKey VALID_INCLUDES entity = some valid) :
    ((∃ w, do_mb_query entity id (.many includes) params
        = .error (MBErr.invalidInclude w)) ↔ ∃ i ∈ includes, i ∉ valid)
    ∧ ((∀ i ∈ includes, i ∈ valid) →
        ∃ req, do_mb_query entity id (.many includes) params = .ok req) := by
  rcases hres : check_includes_impl includes valid with e | u
  · obtain ⟨w, rfl⟩ := check_includes_impl_error_shape includes valid e hres
    constructor
    · constructor
      · intro _
        exact (check_includes_impl_error_iff includes valid).mpr ⟨w, hres⟩
      · intro _
        exact ⟨w, by simp [do_mb_query, IncludesArg.normalize, hent, hres]⟩
    · intro hall
      have hok := (check_includes_impl_ok_iff includes valid).mpr hall
      rw [hok] at hres
      cases hres
  · cases u
    constructor
    · constructor
      · rintro ⟨w, hw⟩
        simp [do_mb_query, IncludesArg.normalize, hent, hres] at hw
      · intro hbad
        obtain ⟨w, hw⟩ := (check_includes_impl_error_iff includes valid).mp hbad
        rw [hw] at hres
        cases hres
    · intro _
      exact ⟨{ path := entity ++ "/" ++ id,
               authRequired := get_auth_type entity id includes,
               args := if 0 < includes.length
                 then assocSet params "inc" (strJoin " " includes)
                 else params },
        by simp [do_mb_query, IncludesArg.normalize, hent, hres]⟩

/-- Witness for C5: `artist` with the bogus include fails with
`InvalidIncludeError`; with the valid include `aliases` the query
assembles a request. -/
theorem C5_witness :
    (∃ w, do_mb_query "artist" "id0" (.many ["bogus"]) []
        = .error (MBErr.invalidInclude w))
    ∧ ∃ req, do_mb_query "artist" "id0" (.many ["aliases"]) [] = .ok req := by
  have hv : lookupKey VALID_INCLUDES "artist" = some
      (["recordings", "releases", "release-groups", "works",
        "various-artists", "discids", "media", "isrcs",
        "aliases", "annotation"]
        ++ RELATION_INCLUDES ++ TAG_INCLUDES ++ RATING_INCLUDES) := rfl
  constructor
  · exact (C5_invalid_include_iff "artist" "id0" _ ["bogus"] [] hv).1.mpr
      ⟨"bogus", by decide, by decide⟩
  · exact (C5_invalid_include_iff "artist" "id0" _ ["aliases"] [] hv).2
      (by decide)

/-! ## Claim C6 -/

theorem check_filter_ok_iff (values valid : List String) :
    check_filter values valid = .ok () ↔ ∀ v ∈ values, v ∈ valid := by
  induction values with
  | nil => simp [check_filter]
  | cons v rest ih =>
    by_cases h : v ∈ valid
    · simp [check_filter, h, ih]
    · simp [check_filter, h]

/-- C6 counterexample: with valid non-empty statuses and types but no
release-related include and a non-release entity, the parameter builder
raises `InvalidFilterError` (lines 265–272) instead of returning a
params mapping, so the claim as universally stated fails. -/
theorem C6_counterexample :
    check_filter_and_make_params "artist" [] (FilterArg.many ["official"])
      (FilterArg.many ["album"])
      = .error (MBErr.invalidFilter
          "Can't have a status with no release include") := by
  rfl

/-- C6 (amended): for every non-empty list of valid release statuses and
non-empty list of valid release types that are *compatible with the
includes and entity* (statuses need a `releases` include or the
`release` entity; types need a `releases`/`release-groups` include or a
`release`/`release-group` entity), the builder returns the params
mapping joining statuses under `"status"` and types under `"type"` with
`"|"`; an empty list produces no such key. -/
theorem C6_filter_params_join (entity : String) (includes rs rt : List String)
    (hrs : ∀ s ∈ rs, s ∈ VALID_RELEASE_STATUSES)
    (hrt : ∀ s ∈ rt, s ∈ VALID_RELEASE_TYPES)
    (hsc : rs = [] ∨ "releases" ∈ includes ∨ entity = "release")
    (htc : rt = [] ∨ "release-groups" ∈ includes ∨ "releases" ∈ includes
        ∨ entity = "release-group" ∨ entity = "release") :
    check_filter_and_make_params entity includes (.many rs) (.many rt)
      = .ok ((if rs ≠ [] then [("status", strJoin "|" rs)] else [])
          ++ (if rt ≠ [] then [("type", strJoin "|" rt)] else [])) := by
  have h1 : check_filter rs VALID_RELEASE_STATUSES = .ok () :=
    (check_filter_ok_iff _ _).mpr hrs
  have h2 : check_filter rt VALID_RELEASE_TYPES = .ok () :=
    (check_filter_ok_iff _ _).mpr hrt
  have hc1 : ¬(rs ≠ [] ∧ "releases" ∉ includes ∧ entity ≠ "release") := by
    rcases hsc with h | h | h <;> simp [h]
  have hc2 : ¬(rt ≠ [] ∧ "release-groups" ∉ includes ∧ "releases" ∉ includes
      ∧ entity ≠ "release-group" ∧ entity ≠ "release") := by
    rcases htc with h | h | h | h | h <;> simp [h]
  simp only [check_filter_and_make_params, FilterArg.toList, h1, h2,
    if_neg hc1, if_neg hc2]
  rcases rs with _ | ⟨s0, rs'⟩ <;> rcases rt with _ | ⟨t0, rt'⟩ <;>
    simp [assocSet]

/-- Witness for C6 (amended): entity `release` with two statuses and one
type yields the joined params. -/
theorem C6_witness :
    check_filter_and_make_params "release" []
      (.many ["official", "promotion"]) (.many ["album"])
      = .ok [("status", "official|promotion"), ("type", "album")] := by
  have h := C6_filter_params_join "release" [] ["official", "promotion"]
    ["album"] (by decide) (by decide) (Or.inr (Or.inr rfl))
    (Or.inr (Or.inr (Or.inr (Or.inr rfl))))
  exact h.trans (by rfl)

/-! ## Claim C9 -/

theorem do_mb_query_ok (entity id : String) (gvalid includes : List String)
    (params : List (String × String))
    (hent : lookupKey VALID_INCLUDES entity = some gvalid)
    (hall : ∀ i ∈ includes, i ∈ gvalid) :
    ∃ req, do_mb_query entity id (.many includes) params = .ok req := by
  have hok : check_includes_impl includes gvalid = .ok () :=
    (check_includes_impl_ok_iff _ _).mpr hall
  exact ⟨{ path := entity ++ "/" ++ id,
           authRequired := get_auth_type entity id includes,
           args := if 0 < includes.length
             then assocSet params "inc" (strJoin " " includes)
             else params },
    by simp [do_mb_query, IncludesArg.normalize, hent, hok]⟩

/-- C9: if more than one of the mutually exclusive browse link parameters
is supplied with a truthy value, `_browse_impl` raises before any request
is assembled; with at most one truthy link parameter (and valid
includes) the browse proceeds to a request. -/
theorem C9_browse_link_params_exclusive (entity : String)
    (bvalid : List String) (includes : List String)
    (limit offset : Option String) (params : List (String × Option String))
    (hent : lookupKey VALID_BROWSE_INCLUDES entity = some bvalid)
    (hinc : ∀ i ∈ includes, i ∈ bvalid) :
    (1 < (truthyParams params).length →
      browse_impl entity (.many includes) limit offset params .nil .nil
        = .error (.genericError ("Can't have more than one of "
            ++ strJoin ", " (params.map (fun q => q.1)))))
    ∧ ((truthyParams params).length ≤ 1 →
      ∀ gvalid, lookupKey VALID_INCLUDES entity = some gvalid →
      (∀ i ∈ includes, i ∈ gvalid) →
      ∃ req, browse_impl entity (.many includes) limit offset params .nil .nil
        = .ok req) := by
  have hok : check_includes_impl includes bvalid = .ok () :=
    (check_includes_impl_ok_iff _ _).mpr hinc
  constructor
  · intro hgt
    simp only [browse_impl, IncludesArg.normalize, hent, hok]
    rw [if_pos hgt]
  · intro hle gvalid hgent hgall
    have hfp : check_filter_and_make_params entity includes
        FilterArg.nil FilterArg.nil = .ok [] := rfl
    simp only [browse_impl, IncludesArg.normalize, hent, hok, hfp]
    rw [if_neg (Nat.not_lt.mpr hle)]
    exact do_mb_query_ok entity "" gvalid includes _ hgent hgall

/-- Witness for C9: `browse_artists` given both a recording and a release
MBID raises; given only a recording MBID it assembles a request. -/
theorem C9_witness :
    browse_artists (some "rec-id") (some "rel-id") none none (.many [])
      none none
      = .error (.genericError
          "Can't have more than one of recording, release, release-group, work")
    ∧ ∃ req, browse_artists (some "rec-id") none none none (.many [])
        none none = .ok req := by
  constructor
  · have h := (C9_browse_link_params_exclusive "artist"
      (["aliases"] ++ TAG_INCLUDES ++ RATING_INCLUDES ++ RELATION_INCLUDES)
      [] none none
      [("recording", some "rec-id"), ("release", some "rel-id"),
       ("release-group", none), ("work", none)] rfl (by decide)).1 (by decide)
    exact h.trans (by rfl)
  · exact (C9_browse_link_params_exclusive "artist"
      (["aliases"] ++ TAG_INCLUDES ++ RATING_INCLUDES ++ RELATION_INCLUDES)
      [] none none
      [("recording", some "rec-id"), ("release", none),
       ("release-group", none), ("work", none)] rfl (by decide)).2
      (by decide)
      (["recordings", "releases", "release-groups", "works",
        "various-artists", "discids", "media", "isrcs",
        "aliases", "annotation"]
        ++ RELATION_INCLUDES ++ TAG_INCLUDES ++ RATING_INCLUDES)
      rfl (by decide)

/-! ## Claim C8 -/

theorem fieldParts_eq_ok (entity : String) (strict : Bool)
    (valid : List String) (fields : List (String × String))
    (hent : lookupKey VALID_SEARCH_FIELDS entity = some valid)
    (hkeys : ∀ p ∈ fields, p.1 ∈ valid) :
    fieldParts entity strict fields = .ok (fieldPartsList strict fields) := by
  induction fields with
  | nil => rfl
  | cons f rest ih =>
    obtain ⟨key, value⟩ := f
    have hk : key ∈ valid := by
      simpa using hkeys (key, value) (List.mem_cons_self _ _)
    have ihe := ih (fun p hp => hkeys p (List.mem_cons_of_mem _ hp))
    simp only [fieldParts, hent, ihe]
    rw [if_neg (not_not_intro hk)]
    rfl

/-- C8: for every search whose assembled Lucene query is empty (empty
`query` argument and every field value escaping to the empty string),
`_do_mb_search` raises `ValueError` before any query is dispatched; when
at least one query term remains (the assembled query is non-empty) no
such error is raised and the search proceeds to a request. -/
theorem C8_empty_query_raises_ValueError (entity query : String)
    (fields : List (String × String)) (limit offset : Option String)
    (strict : Bool) (valid gvalid : List String)
    (hsf : lookupKey VALID_SEARCH_FIELDS entity = some valid)
    (hkeys : ∀ p ∈ fields, p.1 ∈ valid)
    (hgi : lookupKey VALID_INCLUDES entity = some gvalid) :
    (do_mb_search entity query fields limit offset strict
        = .error (.valueError "at least one query term is required")
      ↔ fullQueryOf query fields strict = "")
    ∧ (fullQueryOf query fields strict ≠ "" →
        ∃ req, do_mb_search entity query fields limit offset strict
          = .ok req) := by
  have hfp := fieldParts_eq_ok entity strict valid fields hsf hkeys
  by_cases hq : fullQueryOf query fields strict = ""
  · have hq' : joinQueryParts strict
        (queryParts query (decide (fields ≠ [])) strict
          ++ fieldPartsList strict fields) = "" := hq
    refine ⟨⟨fun _ => hq, fun _ => ?_⟩, fun hne => absurd hq hne⟩
    simp only [do_mb_search, hfp]
    rw [if_pos hq']
  · have hq' : ¬(joinQueryParts strict
        (queryParts query (decide (fields ≠ [])) strict
          ++ fieldPartsList strict fields) = "") := hq
    have hok : ∃ req, do_mb_search entity query fields limit offset strict
        = .ok req := by
      simp only [do_mb_search, hfp]
      rw [if_neg hq']
      exact do_mb_query_ok entity "" gvalid [] _ hgi (by simp)
    refine ⟨⟨fun herr => ?_, fun h => absurd h hq⟩, fun _ => hok⟩
    obtain ⟨req, hreq⟩ := hok
    rw [hreq] at herr
    cases herr

/-- Witness for C8: searching `artist` with empty `query` and a field
value that escapes to the empty string raises the `ValueError`; with a
non-empty field value the search proceeds. -/
theorem C8_witness :
    do_mb_search "artist" "" [("artist", "")] none none false
      = .error (.valueError "at least one query term is required")
    ∧ ∃ req, do_mb_search "artist" "" [("artist", "Dream Theater")]
        none none false = .ok req := by
  constructor
  · exact ((C8_empty_query_raises_ValueError "artist" "" [("artist", "")]
      none none false
      ["alias", "area", "arid", "artist", "artistaccent", "begin",
       "beginarea", "comment", "country", "end", "endarea", "ended",
       "gender", "ipi", "isni", "primary_alias", "sortname", "tag", "type"]
      (["recordings", "releases", "release-groups", "works",
        "various-artists", "discids", "media", "isrcs",
        "aliases", "annotation"]
        ++ RELATION_INCLUDES ++ TAG_INCLUDES ++ RATING_INCLUDES)
      rfl (by decide) rfl).1).mpr (by rfl)
  · exact (C8_empty_query_raises_ValueError "artist" ""
      [("artist", "Dream Theater")] none none false
      ["alias", "area", "arid", "artist", "artistaccent", "begin",
       "beginarea", "comment", "country", "end", "endarea", "ended",
       "gender", "ipi", "isni", "primary_alias", "sortname", "tag", "type"]
      (["recordings", "releases", "release-groups", "works",
        "various-artists", "discids", "media", "isrcs",
        "aliases", "annotation"]
        ++ RELATION_INCLUDES ++ TAG_INCLUDES ++ RATING_INCLUDES)
      rfl (by decide) rfl).2 (by decide)

end Musicbrainzngs
